import Mathlib

/-!
Shallow embedding of the traffic-intersection microsimulation in
`src/main.py` (classes `TrafficLight`, `Vehicle`, `Intersection`), together
with theorems checking the specification's claims about it.

Conventions of the embedding:
* Python numbers (ints and floats) become `ℚ` (or `ℤ`/`ℕ` where the source
  only ever holds integers); `None`-able values become `Option`.
* The wall-clock reads (`time.time()`) inside one call of
  `Intersection.update` are modelled by a single timestamp `now : ℚ`
  passed to the call.
* Randomness (`np.random.*`) is modelled by oracle arguments: the spawn
  draw (`None` when the uniform draw is not below `spawn_rate`) and a
  per-vehicle boolean for the 10% speed-noise draw.  Theorems quantify
  over all oracle values.
-/

inductive LightState where
  | green
  | yellow
  | red
deriving DecidableEq, Repr

/-- Python's `int(...)` applied to a rational value: truncation toward
zero. -/
def int_trunc (q : ℚ) : ℤ :=
  if 0 ≤ q then ⌊q⌋ else -⌊-q⌋

/-- State of `TrafficLight`: cycle configuration (`__init__`), current
phase `state` and per-phase tick counter `timer`. -/
structure TrafficLight where
  cycle : ℤ
  green_duration : ℤ
  yellow_duration : ℤ
  red_duration : ℤ
  state : LightState
  timer : ℤ
deriving DecidableEq, Repr

/-- `TrafficLight.__init__(cycle, green_ratio)`:
`green_duration = int(cycle * green_ratio)`, `yellow_duration = 3`,
`red_duration = cycle - green_duration - yellow_duration`, initial state
green with timer 0. -/
def mkTrafficLight (cycle : ℤ) ( green_ratio : ℚ) : TrafficLight :=
  let gd := int_trunc ((cycle : ℚ) * green_ratio)
  { cycle := cycle
    green_duration := gd
    yellow_duration := 3
    red_duration := cycle - gd - 3
    state := .green
    timer := 0 }

/-- `TrafficLight.update`: increment the timer, then run the
`if / elif / elif` chain of phase transitions (at most one fires). -/
def TrafficLight.update (l : TrafficLight) : TrafficLight :=
  let t := l.timer + 1
  if l.state = .green ∧ l.green_duration ≤ t then
    { l with state := .yellow, timer := 0 }
  else if l.state = .yellow ∧ l.yellow_duration ≤ t then
    { l with state := .red, timer := 0 }
  else if l.state = .red ∧ l.red_duration ≤ t then
    { l with state := .green, timer := 0 }
  else
    { l with timer := t }

inductive Direction where
  | north
  | south
  | east
  | west
deriving DecidableEq, Repr

inductive TargetDirection where
  | straight
  | left
  | right
deriving DecidableEq, Repr

/-- State of `Vehicle`.  `position` is `none` until the vehicle is spawned;
`path` logs `(x, y, timestamp)` samples; `wait_time` counts ticks spent at
speed 0; `exit_time` is set when the vehicle is removed. -/
structure Vehicle where
  id : ℕ
  direction : Direction
  max_speed : ℚ
  speed : ℚ
  acceleration : ℚ
  deceleration : ℚ
  position : Option (ℚ × ℚ)
  path : List (ℚ × ℚ × ℚ)
  wait_time : ℕ
  entry_time : ℚ
  exit_time : Option ℚ
  target_direction : TargetDirection
deriving DecidableEq, Repr

/-- `Vehicle.__init__`: fresh id, speed 0, no position, empty path,
`entry_time = time.time()` (the timestamp of the spawning step); the
`target_direction` random draw is supplied by the caller's oracle. -/
def mkVehicle (id : ℕ) (direction : Direction) (now : ℚ)
    (target : TargetDirection) (max_speed acceleration deceleration : ℚ) :
    Vehicle :=
  { id := id
    direction := direction
    max_speed := max_speed
    speed := 0
    acceleration := acceleration
    deceleration := deceleration
    position := none
    path := []
    wait_time := 0
    entry_time := now
    exit_time := none
    target_direction := target }

/-- Step 1 of `Vehicle.update_speed` (acceleration):
`if speed < max_speed: speed = min(speed + acceleration, max_speed)`. -/
def Vehicle.accel_step (v : Vehicle) : ℚ :=
  if v.speed < v.max_speed then min (v.speed + v.acceleration) v.max_speed
  else v.speed

/-- Step 2 of `Vehicle.update_speed` (car-following): when a front
vehicle exists within `safe_distance`,
`speed = max(0, min(speed, front_vehicle_dist - 1))`. -/
def car_follow_clamp (s1 safe_distance : ℚ)
    (front_vehicle_dist : Option ℚ) : ℚ :=
  match front_vehicle_dist with
  | some d => if d < safe_distance then max 0 (min s1 (d - 1)) else s1
  | none => s1

/-- Step 3 of `Vehicle.update_speed` (signal compliance): on yellow or
red within `safe_distance * 2` of the light and within the braking
distance `speed**2 / (2 * deceleration)`,
`speed = max(0, speed - deceleration)`.  When `deceleration = 0` the
source would raise `ZeroDivisionError`; `ℚ` division by zero yields 0
instead. -/
def signal_brake (s2 safe_distance light_dist deceleration : ℚ)
    (light_state : LightState) : ℚ :=
  if (light_state = .red ∨ light_state = .yellow) ∧
      light_dist < safe_distance * 2 ∧
      light_dist < s2 ^ 2 / (2 * deceleration) then
    max 0 (s2 - deceleration)
  else s2

/-- Step 4 of `Vehicle.update_speed` (stochastic perturbation): when the
oracle's `np.random.random() < 0.1` draw fires and the speed is positive,
reduce it by 1 (floored at 0). -/
def noise_step (s3 : ℚ) (noise : Bool) : ℚ :=
  if noise ∧ 0 < s3 then max 0 (s3 - 1) else s3

/-- `Vehicle.update_speed(front_vehicle_dist, light_state, light_dist)`:
acceleration, then the car-following clamp against
`safe_distance = max(2, speed * 1.5)`, then signal braking, then the
random 1-unit slowdown. -/
def Vehicle.update_speed (v : Vehicle) (front_vehicle_dist : Option ℚ)
    (light_state : LightState) (light_dist : ℚ) (noise : Bool) : Vehicle :=
  let s1 := v.accel_step
  let safe_distance := max 2 (s1 * (3 / 2))
  let s2 := car_follow_clamp s1 safe_distance front_vehicle_dist
  let s3 := signal_brake s2 safe_distance light_dist v.deceleration
    light_state
  let s4 := noise_step s3 noise
  { v with speed := s4 }

/-- `Vehicle.move`: if the position is set, append the current position to
`path` and displace it by `speed` along the travel axis; afterwards (in
either case) increment `wait_time` when `speed == 0`. -/
def Vehicle.move (v : Vehicle) (now : ℚ) : Vehicle :=
  let v1 :=
    match v.position with
    | some (x, y) =>
      let path := v.path ++ [(x, y, now)]
      let pos : ℚ × ℚ :=
        match v.direction with
        | .north => (x, y + v.speed)
        | .south => (x, y - v.speed)
        | .east => (x + v.speed, y)
        | .west => (x - v.speed, y)
      { v with path := path, position := some pos }
    | none => v
  if v1.speed = 0 then { v1 with wait_time := v1.wait_time + 1 } else v1

/-- The aggregate statistics dictionary `Intersection.stats`. -/
structure Stats where
  total_vehicles : ℕ
  avg_wait_time : ℚ
  avg_travel_time : ℚ
  throughput : ℕ
  queue_lengths : Direction → List ℕ

/-- State of `Intersection`.  `next_id` models the `Vehicle.next_id`
counter (a class-global in Python; with a single simulation instance the
behavior is identical). -/
structure Intersection where
  road_length : ℚ
  lane_width : ℚ
  spawn_rate : ℚ
  light_NS : TrafficLight
  light_EW : TrafficLight
  vehicles : List Vehicle
  removed_vehicles : List Vehicle
  next_id : ℕ
  stats : Stats

/-- Python's floor division `a // b` on numbers. -/
def floor_div (a b : ℚ) : ℚ := ((⌊a / b⌋ : ℤ) : ℚ)

/-- `Intersection.__init__(road_length, lane_width, spawn_rate)`: both
signals are created as `TrafficLight(cycle=60, green_ratio=0.5)`; then
`light_NS.state` is set to green (it already is) and `light_EW.state` to
red. -/
def mkIntersection (road_length lane_width spawn_rate : ℚ) : Intersection :=
  { road_length := road_length
    lane_width := lane_width
    spawn_rate := spawn_rate
    light_NS := { mkTrafficLight 60 (1 / 2) with state := .green }
    light_EW := { mkTrafficLight 60 (1 / 2) with state := .red }
    vehicles := []
    removed_vehicles := []
    next_id := 0
    stats :=
      { total_vehicles := 0
        avg_wait_time := 0
        avg_travel_time := 0
        throughput := 0
        queue_lengths := fun _ => [] } }

/-- Lower road boundary `road_length//2 - lane_width//2` (identical for
all four directions in the source's `road_boundaries` dict). -/
def Intersection.boundary_lo (i : Intersection) : ℚ :=
  floor_div i.road_length 2 - floor_div i.lane_width 2

/-- Upper road boundary `road_length//2 + lane_width//2`. -/
def Intersection.boundary_hi (i : Intersection) : ℚ :=
  floor_div i.road_length 2 + floor_div i.lane_width 2

/-- `Intersection.spawn_vehicle`.  The random draws are supplied by
`draw`: `none` models `np.random.random() >= spawn_rate` (no spawn);
`some (direction, offset, target)` models an accepted spawn with the
chosen direction, the uniform position offset across the lane, and the
vehicle's turn-intent draw.  The new vehicle uses the default
`Vehicle(direction)` constants `max_speed=5, acceleration=1,
deceleration=2` and is placed on the edge opposite its travel
direction. -/
def Intersection.spawn_vehicle (i : Intersection)
    (draw : Option (Direction × ℚ × TargetDirection)) (now : ℚ) :
    Intersection :=
  match draw with
  | none => i
  | some (direction, offset, target) =>
    let start_pos : ℚ × ℚ :=
      match direction with
      | .north => (offset, 0)
      | .south => (offset, i.road_length)
      | .east => (0, offset)
      | .west => (i.road_length, offset)
    let vehicle := mkVehicle i.next_id direction now target 5 1 2
    { i with
      vehicles := i.vehicles ++ [{ vehicle with position := some start_pos }]
      next_id := i.next_id + 1
      stats :=
        { i.stats with total_vehicles := i.stats.total_vehicles + 1 } }

/-- `Intersection.get_light_state`: north/south read the NS signal,
east/west the EW signal. -/
def Intersection.get_light_state (i : Intersection) (direction : Direction) :
    LightState :=
  match direction with
  | .north | .south => i.light_NS.state
  | .east | .west => i.light_EW.state

/-- Unpacking of `vehicle.position`.  Every caller below sits inside the
update loop, where all stored vehicles have been spawned with a position,
so the `(0, 0)` fallback is never reached there (on a `None` position the
Python source would raise unpacking `x, y = vehicle.position`). -/
def posOf (v : Vehicle) : ℚ × ℚ := v.position.getD (0, 0)

/-- `Intersection.get_distance_to_light`: signed distance from the
vehicle's position to the stop line at `road_length//2`, measured along
the travel direction. -/
def Intersection.get_distance_to_light (i : Intersection) (v : Vehicle) : ℚ :=
  match v.direction with
  | .north => i.road_length - (posOf v).2 - floor_div i.road_length 2
  | .south => (posOf v).2 - floor_div i.road_length 2
  | .east => i.road_length - (posOf v).1 - floor_div i.road_length 2
  | .west => (posOf v).1 - floor_div i.road_length 2

/-- `Intersection.check_collision` over an explicit vehicle list (the
source reads `self.vehicles`, mutated in place during the update loop, so
the loop's current list is passed explicitly).  The source compares
`sqrt(dx**2 + dy**2) < 2`; for real inputs that is equivalent to
`dx**2 + dy**2 < 4`, the form used here to stay inside `ℚ`. -/
def check_collision (vs : List Vehicle) (v : Vehicle) : Bool :=
  vs.any fun other =>
    decide (other.id ≠ v.id ∧
      ((posOf v).1 - (posOf other).1) ^ 2 +
          ((posOf v).2 - (posOf other).2) ^ 2 < 4)

/-- `Intersection.check_exit`: has the position crossed the road boundary
in the direction of travel? -/
def Intersection.check_exit (i : Intersection) (v : Vehicle) : Bool :=
  match v.direction with
  | .north => decide (i.road_length < (posOf v).2)
  | .south => decide ((posOf v).2 < 0)
  | .east => decide (i.road_length < (posOf v).1)
  | .west => decide ((posOf v).1 < 0)

/-- `Intersection.get_front_vehicle_distance` over an explicit vehicle
list: minimum positive axial distance to another vehicle of the same
direction, `none` when there is no such vehicle. -/
def get_front_vehicle_distance (vs : List Vehicle) (v : Vehicle) :
    Option ℚ :=
  (vs.filterMap fun other =>
    if other.id ≠ v.id ∧ other.direction = v.direction then
      let dist : ℚ :=
        match v.direction with
        | .north => (posOf other).2 - (posOf v).2
        | .south => (posOf v).2 - (posOf other).2
        | .east => (posOf other).1 - (posOf v).1
        | .west => (posOf v).1 - (posOf other).1
      if 0 < dist then some dist else none
    else none).min?

/-- The throughput and running-average bookkeeping performed by
`Intersection.update` when a vehicle exits (src/main.py lines 331-340):
increment `throughput`, then update both incremental means with
`newAvg = (oldAvg * (n - 1) + newValue) / n` where `n` is the
post-increment throughput. -/
def record_exit_stats (s : Stats) (travel_time : ℚ) (wait_time : ℕ) :
    Stats :=
  let throughput := s.throughput + 1
  { s with
    throughput := throughput
    avg_travel_time :=
      (s.avg_travel_time * ((throughput : ℚ) - 1) + travel_time) /
        (throughput : ℚ)
    avg_wait_time :=
      (s.avg_wait_time * ((throughput : ℚ) - 1) + (wait_time : ℚ)) /
        (throughput : ℚ) }

/-- The `for i, vehicle in enumerate(self.vehicles)` loop body of
`Intersection.update`, processing vehicles from index `idx` upward.  Each
vehicle's speed is updated and it is moved (mutated in place, hence
`List.set`); on a collision its `exit_time` is set and its index is
marked; otherwise, on exit, its `exit_time` is set, its index is marked
and the exit statistics are recorded.  Returns the final vehicle list,
the marked indices (in increasing order) and the final statistics.
`i` supplies the signals and geometry, which the loop does not mutate. -/
def Intersection.process_vehicles (i : Intersection) (noise : ℕ → Bool)
    (now : ℚ) (idx : ℕ) (vs : List Vehicle) (to_remove : List ℕ)
    (stats : Stats) : List Vehicle × List ℕ × Stats :=
  if h : idx < vs.length then
    let v := vs[idx]
    let light_state := i.get_light_state v.direction
    let light_dist := i.get_distance_to_light v
    let front_dist := get_front_vehicle_distance vs v
    let v2 := (v.update_speed front_dist light_state light_dist
      (noise idx)).move now
    let vs2 := vs.set idx v2
    if check_collision vs2 v2 then
      i.process_vehicles noise now (idx + 1)
        (vs2.set idx { v2 with exit_time := some now })
        (to_remove ++ [idx]) stats
    else if i.check_exit v2 then
      i.process_vehicles noise now (idx + 1)
        (vs2.set idx { v2 with exit_time := some now })
        (to_remove ++ [idx])
        (record_exit_stats stats (now - v2.entry_time) v2.wait_time)
    else
      i.process_vehicles noise now (idx + 1) vs2 to_remove stats
  else
    (vs, to_remove, stats)
termination_by vs.length - idx
decreasing_by
  all_goals simp_all [List.length_set]; omega

/-- End-of-step removal
`for i in sorted(to_remove, reverse=True):
removed_vehicles.append(vehicles.pop(i))`, applied to the
descending-sorted index list.  The marked indices are always valid, so
the `none` branch (Python would raise `IndexError`) is never reached. -/
def pop_marked : List Vehicle → List Vehicle → List ℕ →
    List Vehicle × List Vehicle
  | vs, removed, [] => (vs, removed)
  | vs, removed, idx :: rest =>
    match vs[idx]? with
    | some v => pop_marked (vs.eraseIdx idx) (removed ++ [v]) rest
    | none => pop_marked vs removed rest

/-- `Intersection._record_queue_lengths`: count, per direction, the active
vehicles within 30 units of their stop line with speed 0, and append the
four counts to the per-direction `queue_lengths` series. -/
def Intersection.record_queue_lengths (i : Intersection) : Intersection :=
  let queues : Direction → ℕ :=
    i.vehicles.foldl
      (fun q v =>
        if i.get_distance_to_light v < 30 ∧ v.speed = 0 then
          fun d => if d = v.direction then q d + 1 else q d
        else q)
      fun _ => 0
  { i with
    stats :=
      { i.stats with
        queue_lengths := fun d => i.stats.queue_lengths d ++ [queues d] } }

/-- The count recorded by `Intersection._record_queue_lengths` for one
direction: active vehicles of that direction within 30 units of their
stop line with speed 0. -/
def Intersection.queue_count (i : Intersection) (d : Direction) : ℕ :=
  (i.vehicles.filter fun v =>
    decide (i.get_distance_to_light v < 30 ∧ v.speed = 0 ∧
      v.direction = d)).length

/-- The per-step random draws of `Intersection.update`: the spawn draw and
the per-vehicle-index noise draws. -/
structure StepOracle where
  spawn : Option (Direction × ℚ × TargetDirection)
  noise : ℕ → Bool

/-- The middle of `Intersection.update`: run the per-vehicle loop over
the whole vehicle list, then pop the marked vehicles (in reverse index
order) into `removed_vehicles`. -/
def Intersection.step_core (i2 : Intersection) (noise : ℕ → Bool)
    (now : ℚ) : Intersection :=
  let r := i2.process_vehicles noise now 0 i2.vehicles [] i2.stats
  let p := pop_marked r.1 i2.removed_vehicles r.2.1.reverse
  { i2 with vehicles := p.1, removed_vehicles := p.2, stats := r.2.2 }

/-- The first two lines of `Intersection.update`: advance both
signals. -/
def Intersection.advance_lights (i : Intersection) : Intersection :=
  { i with
    light_NS := i.light_NS.update
    light_EW := i.light_EW.update }

/-- `Intersection.update(step)`: advance both signals, attempt a spawn,
run the per-vehicle loop and removal (`step_core`), and record the
queue-length samples. -/
def Intersection.update (i : Intersection) (o : StepOracle) (now : ℚ) :
    Intersection :=
  (((i.advance_lights).spawn_vehicle o.spawn now).step_core o.noise
    now).record_queue_lengths

/-- Driving the simulation: fold `update` over a list of per-step oracle
and timestamp pairs.  The reachable states of a run are exactly
`(mkIntersection ...).run steps` for some `steps`. -/
def Intersection.run (i : Intersection) : List (StepOracle × ℚ) →
    Intersection
  | [] => i
  | (o, now) :: rest => (i.update o now).run rest

/-- Concrete vehicle record used as input for claim checks: an agent
whose current speed equals its `max_speed = 8/5`, with a front vehicle
just outside the computed safe distance. -/
def fastVehicle : Vehicle :=
  { id := 0
    direction := .north
    max_speed := 8 / 5
    speed := 8 / 5
    acceleration := 1
    deceleration := 2
    position := none
    path := []
    wait_time := 0
    entry_time := 0
    exit_time := none
    target_direction := .straight }

/-- Concrete misconfigured signal: `red_duration = -1` (as produced by
`TrafficLight(cycle=4, green_ratio=0.5)` once it reaches red). -/
def redMisconfiguredLight : TrafficLight :=
  { cycle := 4
    green_duration := 2
    yellow_duration := 3
    red_duration := -1
    state := .red
    timer := 0 }

/-- The initial `stats` dictionary: all counters zero. -/
def zeroStats : Stats :=
  { total_vehicles := 0
    avg_wait_time := 0
    avg_travel_time := 0
    throughput := 0
    queue_lengths := fun _ => [] }

lemma mkTrafficLight_60_eq :
    mkTrafficLight 60 (1 / 2) =
      { cycle := 60, green_duration := 30, yellow_duration := 3,
        red_duration := 27, state := .green, timer := 0 } := by
  have h : ((60 : ℤ) : ℚ) * (1 / 2) = ((30 : ℤ) : ℚ) := by norm_num
  simp only [mkTrafficLight, int_trunc, h, Int.floor_intCast]
  norm_num

lemma mkTrafficLight_4_eq :
    mkTrafficLight 4 (1 / 2) =
      { cycle := 4, green_duration := 2, yellow_duration := 3,
        red_duration := -1, state := .green, timer := 0 } := by
  have h : ((4 : ℤ) : ℚ) * (1 / 2) = ((2 : ℤ) : ℚ) := by norm_num
  simp only [mkTrafficLight, int_trunc, h, Int.floor_intCast]
  norm_num

lemma accel_step_nonneg (v : Vehicle) (hacc : 0 ≤ v.acceleration)
    (hmax : 0 ≤ v.max_speed) (h0 : 0 ≤ v.speed) : 0 ≤ v.accel_step := by
  unfold Vehicle.accel_step
  split
  · exact le_min (by linarith) hmax
  · exact h0

lemma accel_step_le (v : Vehicle) (h1 : v.speed ≤ v.max_speed) :
    v.accel_step ≤ v.max_speed := by
  unfold Vehicle.accel_step
  split
  · exact min_le_right _ _
  · exact h1

lemma car_follow_clamp_nonneg (s1 safe : ℚ) (front : Option ℚ)
    (h : 0 ≤ s1) : 0 ≤ car_follow_clamp s1 safe front := by
  unfold car_follow_clamp
  rcases front with _ | d
  · exact h
  · dsimp only
    split
    · exact le_max_left _ _
    · exact h

lemma car_follow_clamp_le (s1 safe M : ℚ) (front : Option ℚ)
    (hM : 0 ≤ M) (h : s1 ≤ M) : car_follow_clamp s1 safe front ≤ M := by
  unfold car_follow_clamp
  rcases front with _ | d
  · exact h
  · dsimp only
    split
    · exact max_le hM ((min_le_left _ _).trans h)
    · exact h

lemma signal_brake_nonneg (s2 safe ld decel : ℚ) (ls : LightState)
    (h : 0 ≤ s2) : 0 ≤ signal_brake s2 safe ld decel ls := by
  unfold signal_brake
  split
  · exact le_max_left _ _
  · exact h

lemma signal_brake_le (s2 safe ld decel : ℚ) (ls : LightState)
    (hdec : 0 ≤ decel) (h0 : 0 ≤ s2) :
    signal_brake s2 safe ld decel ls ≤ s2 := by
  unfold signal_brake
  split
  · exact max_le h0 (by linarith)
  · exact le_rfl

lemma noise_step_nonneg (s3 : ℚ) (b : Bool) (h : 0 ≤ s3) :
    0 ≤ noise_step s3 b := by
  unfold noise_step
  split
  · exact le_max_left _ _
  · exact h

lemma noise_step_le (s3 : ℚ) (b : Bool) (h : 0 ≤ s3) :
    noise_step s3 b ≤ s3 := by
  unfold noise_step
  split
  · exact max_le h (by linarith)
  · exact le_rfl

lemma update_speed_speed (v : Vehicle) (front_dist : Option ℚ)
    (light_state : LightState) (light_dist : ℚ) (noise : Bool) :
    (v.update_speed front_dist light_state light_dist noise).speed =
      noise_step
        (signal_brake
          (car_follow_clamp v.accel_step (max 2 (v.accel_step * (3 / 2)))
            front_dist)
          (max 2 (v.accel_step * (3 / 2))) light_dist v.deceleration
          light_state)
        noise := rfl

lemma move_speed (v : Vehicle) (now : ℚ) : (v.move now).speed = v.speed := by
  unfold Vehicle.move
  rcases hp : v.position with _ | ⟨x, y⟩ <;> simp only [hp] <;> split <;> rfl

/-- **C1**: for every agent with positive `max_speed`, `acceleration` and
`deceleration`, if `0 ≤ speed ≤ max_speed` holds before a call to
`update_speed` (with any front-distance, signal-phase, signal-distance
and noise-draw arguments) then it holds after it; `move` leaves the speed
unchanged, so the bounds are preserved by every tick's
`update_speed`-then-`move` pair. -/
theorem speed_bounds_invariant (v : Vehicle) (front_dist : Option ℚ)
    (light_state : LightState) (light_dist : ℚ) (noise : Bool) (now : ℚ)
    (hmax : 0 < v.max_speed) (hacc : 0 < v.acceleration)
    (hdec : 0 < v.deceleration) (h0 : 0 ≤ v.speed)
    (h1 : v.speed ≤ v.max_speed) :
    (0 ≤ (v.update_speed front_dist light_state light_dist noise).speed ∧
      (v.update_speed front_dist light_state light_dist noise).speed ≤
        v.max_speed) ∧
    (v.move now).speed = v.speed := by
  have a0 := accel_step_nonneg v hacc.le hmax.le h0
  have a1 := accel_step_le v h1
  have b0 := car_follow_clamp_nonneg v.accel_step
    (max 2 (v.accel_step * (3 / 2))) front_dist a0
  have b1 := car_follow_clamp_le v.accel_step
    (max 2 (v.accel_step * (3 / 2))) v.max_speed front_dist hmax.le a1
  have c0 := signal_brake_nonneg _ (max 2 (v.accel_step * (3 / 2)))
    light_dist v.deceleration light_state b0
  have c1 := (signal_brake_le _ (max 2 (v.accel_step * (3 / 2)))
    light_dist v.deceleration light_state hdec.le b0).trans b1
  have d0 := noise_step_nonneg _ noise c0
  have d1 := (noise_step_le _ noise c0).trans c1
  refine ⟨⟨?_, ?_⟩, move_speed v now⟩
  · rw [update_speed_speed]; exact d0
  · rw [update_speed_speed]; exact d1

theorem speed_bounds_invariant_witness :
    0 < (mkVehicle 0 .north 0 .straight 5 1 2).max_speed ∧
    0 < (mkVehicle 0 .north 0 .straight 5 1 2).acceleration ∧
    0 < (mkVehicle 0 .north 0 .straight 5 1 2).deceleration ∧
    0 ≤ (mkVehicle 0 .north 0 .straight 5 1 2).speed ∧
    (mkVehicle 0 .north 0 .straight 5 1 2).speed ≤
      (mkVehicle 0 .north 0 .straight 5 1 2).max_speed ∧
    ((0 ≤ ((mkVehicle 0 .north 0 .straight 5 1 2).update_speed none .green 0
          false).speed ∧
      ((mkVehicle 0 .north 0 .straight 5 1 2).update_speed none .green 0
          false).speed ≤ (mkVehicle 0 .north 0 .straight 5 1 2).max_speed) ∧
      ((mkVehicle 0 .north 0 .straight 5 1 2).move 0).speed =
        (mkVehicle 0 .north 0 .straight 5 1 2).speed) := by
  refine ⟨by norm_num [mkVehicle], by norm_num [mkVehicle],
    by norm_num [mkVehicle], by norm_num [mkVehicle], by norm_num [mkVehicle],
    speed_bounds_invariant _ none .green 0 false 0 (by norm_num [mkVehicle])
      (by norm_num [mkVehicle]) (by norm_num [mkVehicle])
      (by norm_num [mkVehicle]) (by norm_num [mkVehicle])⟩

/-- **C2 counterexample**: the claimed unconditional bound
`post-update speed ≤ max(0, frontDistance - 1)` fails when the front
vehicle sits just outside the computed safe distance: `fastVehicle` keeps
speed `8/5` with `frontDistance = 5/2` (safe distance `12/5`), yet
`max(0, 5/2 - 1) = 3/2 < 8/5`. -/
theorem car_following_safety_counterexample :
    ¬((fastVehicle.update_speed (some (5 / 2)) .green 0 false).speed ≤
        max 0 ((5 / 2 : ℚ) - 1)) := by
  have e : (fastVehicle.update_speed (some (5 / 2)) .green 0 false).speed =
      8 / 5 := by
    rw [update_speed_speed]
    have h1 : fastVehicle.accel_step = 8 / 5 := by
      unfold Vehicle.accel_step fastVehicle
      norm_num
    rw [h1]
    have h2 : max (2 : ℚ) ((8 / 5) * (3 / 2)) = 12 / 5 := by
      rw [max_eq_right] <;> norm_num
    rw [h2]
    have h3 : car_follow_clamp (8 / 5) (12 / 5) (some (5 / 2)) = 8 / 5 := by
      unfold car_follow_clamp
      norm_num
    rw [h3]
    have h4 : signal_brake (8 / 5) (12 / 5) 0 fastVehicle.deceleration
        .green = 8 / 5 := by
      unfold signal_brake
      rw [if_neg]
      rintro ⟨h, -, -⟩
      rcases h with h | h <;> revert h <;> decide
    rw [h4]
    unfold noise_step
    norm_num
  rw [e]
  have h5 : max (0 : ℚ) ((5 / 2 : ℚ) - 1) = 3 / 2 := by
    rw [max_eq_right] <;> norm_num
  rw [h5]
  norm_num

/-- **C2 (amended)**: the car-following bound holds whenever the clamp
actually fires, i.e. when `frontDistance` is below the safe distance
`max(2, 1.5 * postAccelerationSpeed)` (and the agent's deceleration is
nonnegative, as all spawned agents' are): then the post-update speed is
at most `max(0, frontDistance - 1)`, whatever the prior speed, signal
phase, signal distance and noise draw. -/
theorem car_following_clamped_bound (v : Vehicle) (front_dist : ℚ)
    (light_state : LightState) (light_dist : ℚ) (noise : Bool)
    (hdec : 0 ≤ v.deceleration)
    (hclose : front_dist < max 2 (v.accel_step * (3 / 2))) :
    (v.update_speed (some front_dist) light_state light_dist noise).speed ≤
      max 0 (front_dist - 1) := by
  rw [update_speed_speed]
  have h2 : car_follow_clamp v.accel_step (max 2 (v.accel_step * (3 / 2)))
      (some front_dist) = max 0 (min v.accel_step (front_dist - 1)) := by
    unfold car_follow_clamp
    dsimp only
    rw [if_pos hclose]
  have hb : car_follow_clamp v.accel_step (max 2 (v.accel_step * (3 / 2)))
      (some front_dist) ≤ max 0 (front_dist - 1) := by
    rw [h2]
    exact max_le (le_max_left _ _)
      (le_max_of_le_right (min_le_right _ _))
  have h0 : 0 ≤ car_follow_clamp v.accel_step
      (max 2 (v.accel_step * (3 / 2))) (some front_dist) := by
    rw [h2]
    exact le_max_left _ _
  have hs0 := signal_brake_nonneg _ (max 2 (v.accel_step * (3 / 2)))
    light_dist v.deceleration light_state h0
  calc noise_step (signal_brake _ (max 2 (v.accel_step * (3 / 2)))
        light_dist v.deceleration light_state) noise
      ≤ signal_brake _ (max 2 (v.accel_step * (3 / 2))) light_dist
          v.deceleration light_state := noise_step_le _ _ hs0
    _ ≤ car_follow_clamp v.accel_step (max 2 (v.accel_step * (3 / 2)))
          (some front_dist) :=
        signal_brake_le _ _ _ _ _ hdec h0
    _ ≤ max 0 (front_dist - 1) := hb

theorem car_following_clamped_bound_witness :
    0 ≤ (mkVehicle 0 .north 0 .straight 5 1 2).deceleration ∧
    (1 : ℚ) < max 2 ((mkVehicle 0 .north 0 .straight 5 1 2).accel_step *
      (3 / 2)) ∧
    ((mkVehicle 0 .north 0 .straight 5 1 2).update_speed (some 1) .green 0
        false).speed ≤ max 0 ((1 : ℚ) - 1) := by
  refine ⟨by norm_num [mkVehicle], ?_, ?_⟩
  · exact lt_of_lt_of_le (by norm_num) (le_max_left _ _)
  · exact car_following_clamped_bound _ 1 .green 0 false
      (by norm_num [mkVehicle])
      (lt_of_lt_of_le (by norm_num) (le_max_left _ _))

set_option maxRecDepth 8000 in
/-- **C3**: `TrafficLight(cycle=60, green_ratio=0.5)` starts green with
timer 0; after 30 `update` calls it is yellow; after 33 it is red; after
60 it is green again with timer 0. -/
theorem signal_concrete_scenario :
    (mkTrafficLight 60 (1 / 2)).state = .green ∧
    (mkTrafficLight 60 (1 / 2)).timer = 0 ∧
    (TrafficLight.update^[30] (mkTrafficLight 60 (1 / 2))).state =
      .yellow ∧
    (TrafficLight.update^[33] (mkTrafficLight 60 (1 / 2))).state = .red ∧
    (TrafficLight.update^[60] (mkTrafficLight 60 (1 / 2))).state =
      .green ∧
    (TrafficLight.update^[60] (mkTrafficLight 60 (1 / 2))).timer = 0 := by
  rw [mkTrafficLight_60_eq]
  decide

/-- **C4 counterexample**: `TrafficLight(cycle=4, green_ratio=0.5)` has
`green_duration + yellow_duration = 5 > 4 = cycle`, hence
`red_duration = -1 ≤ 0`; it is red after 5 `update` calls, and the very
next call transitions it out of red to green — the signal does not hang
in red. -/
theorem signal_red_freeze_counterexample :
    (mkTrafficLight 4 (1 / 2)).cycle <
      (mkTrafficLight 4 (1 / 2)).green_duration +
        (mkTrafficLight 4 (1 / 2)).yellow_duration ∧
    (mkTrafficLight 4 (1 / 2)).red_duration ≤ 0 ∧
    (TrafficLight.update^[5] (mkTrafficLight 4 (1 / 2))).state = .red ∧
    (TrafficLight.update^[6] (mkTrafficLight 4 (1 / 2))).state =
      .green := by
  rw [mkTrafficLight_4_eq]
  decide

/-- **C4 (amended)**: for a signal whose misconfiguration makes
`red_duration ≤ 0` (as when `green_duration + yellow_duration >
cycle`), the red phase's elapsed-time check `timer >= red_duration` is
true on the first update inside red (the timer being nonnegative), so
the signal leaves red for green after a single tick — the check is
always true, not always false, and the signal never hangs in red. -/
theorem red_nonpositive_duration_exits_immediately (l : TrafficLight)
    (hstate : l.state = .red) (hred : l.red_duration ≤ 0)
    (htimer : 0 ≤ l.timer) :
    l.update.state = .green ∧ l.update.timer = 0 := by
  have hg : ¬(l.state = .green ∧ l.green_duration ≤ l.timer + 1) := by
    rw [hstate]
    rintro ⟨h, -⟩
    revert h
    decide
  have hy : ¬(l.state = .yellow ∧ l.yellow_duration ≤ l.timer + 1) := by
    rw [hstate]
    rintro ⟨h, -⟩
    revert h
    decide
  have hr : l.state = .red ∧ l.red_duration ≤ l.timer + 1 :=
    ⟨hstate, by omega⟩
  simp only [TrafficLight.update, if_neg hg, if_neg hy, if_pos hr]
  exact ⟨trivial, trivial⟩

theorem red_nonpositive_duration_exits_immediately_witness :
    redMisconfiguredLight.state = .red ∧
    redMisconfiguredLight.red_duration ≤ 0 ∧
    0 ≤ redMisconfiguredLight.timer ∧
    (redMisconfiguredLight.update.state = .green ∧
      redMisconfiguredLight.update.timer = 0) :=
  ⟨rfl, by decide, by decide,
    red_nonpositive_duration_exits_immediately redMisconfiguredLight rfl
      (by decide) (by decide)⟩

/-- **C6**: starting from `avg_travel_time = 0` and `throughput = 0`,
recording three exits with travel times 5, 7, 9 (in that order, with any
wait times) through the incremental-mean update
`newAvg = (oldAvg * (n - 1) + newValue) / n` (with `n` the
post-increment throughput) yields `avg_travel_time = 5`, then 6,
then 7. -/
theorem incremental_mean_5_7_9 (s : Stats) (w₁ w₂ w₃ : ℕ)
    (havg : s.avg_travel_time = 0) (hthr : s.throughput = 0) :
    (record_exit_stats s 5 w₁).avg_travel_time = 5 ∧
    (record_exit_stats (record_exit_stats s 5 w₁) 7 w₂).avg_travel_time =
      6 ∧
    (record_exit_stats (record_exit_stats (record_exit_stats s 5 w₁) 7 w₂)
        9 w₃).avg_travel_time = 7 := by
  simp only [record_exit_stats, havg, hthr]
  norm_num

theorem incremental_mean_5_7_9_witness :
    zeroStats.avg_travel_time = 0 ∧ zeroStats.throughput = 0 ∧
    ((record_exit_stats zeroStats 5 1).avg_travel_time = 5 ∧
      (record_exit_stats (record_exit_stats zeroStats 5 1) 7
          1).avg_travel_time = 6 ∧
      (record_exit_stats
          (record_exit_stats (record_exit_stats zeroStats 5 1) 7 1) 9
          1).avg_travel_time = 7) :=
  ⟨rfl, rfl, incremental_mean_5_7_9 zeroStats 1 1 1 rfl rfl⟩

/-- **C9 counterexample**: `move` on a never-spawned vehicle
(`position = None`) is not a complete no-op: with speed 0 it still
increments `wait_time`. -/
theorem move_unspawned_counterexample :
    (mkVehicle 0 .north 0 .straight 5 1 2).position = none ∧
    ((mkVehicle 0 .north 0 .straight 5 1 2).move 0).wait_time ≠
      (mkVehicle 0 .north 0 .straight 5 1 2).wait_time := by
  constructor
  · rfl
  · have h : ((mkVehicle 0 .north 0 .straight 5 1 2).move 0).wait_time =
        1 := by
      unfold Vehicle.move mkVehicle
      norm_num
    rw [h]
    norm_num [mkVehicle]

/-- **C9 (amended)**: `move` on a never-spawned vehicle
(`position = None`) performs no movement — `position`, `path` and
`speed` are unchanged — but the wait-time bookkeeping still runs:
`wait_time` is incremented when `speed == 0` and unchanged
otherwise. -/
theorem move_unspawned_frame (v : Vehicle) (now : ℚ)
    (h : v.position = none) :
    (v.move now).position = none ∧ (v.move now).path = v.path ∧
    (v.move now).speed = v.speed ∧
    (v.move now).wait_time =
      (if v.speed = 0 then v.wait_time + 1 else v.wait_time) := by
  unfold Vehicle.move
  rw [h]
  dsimp only
  split <;> simp_all

theorem move_unspawned_frame_witness :
    (mkVehicle 0 .north 0 .straight 5 1 2).position = none ∧
    (((mkVehicle 0 .north 0 .straight 5 1 2).move 0).position = none ∧
      ((mkVehicle 0 .north 0 .straight 5 1 2).move 0).path =
        (mkVehicle 0 .north 0 .straight 5 1 2).path ∧
      ((mkVehicle 0 .north 0 .straight 5 1 2).move 0).speed =
        (mkVehicle 0 .north 0 .straight 5 1 2).speed ∧
      ((mkVehicle 0 .north 0 .straight 5 1 2).move 0).wait_time =
        (if (mkVehicle 0 .north 0 .straight 5 1 2).speed = 0 then
          (mkVehicle 0 .north 0 .straight 5 1 2).wait_time + 1
        else (mkVehicle 0 .north 0 .straight 5 1 2).wait_time)) :=
  ⟨rfl, move_unspawned_frame (mkVehicle 0 .north 0 .straight 5 1 2) 0 rfl⟩

lemma process_vehicles_length (i : Intersection) (noise : ℕ → Bool)
    (now : ℚ) (idx : ℕ) (vs : List Vehicle) (tr : List ℕ) (s : Stats) :
    (i.process_vehicles noise now idx vs tr s).1.length = vs.length := by
  induction idx, vs, tr, s using Intersection.process_vehicles.induct i noise now with
  | case1 idx vs tr s h v ls ld fd v2 vs2 hcol ih =>
    rw [Intersection.process_vehicles]
    unfold vs2 v2 fd ld ls v at ih hcol
    rw [dif_pos h, if_pos hcol]
    simp only [List.set_set, List.length_set] at ih ⊢
    exact ih
  | case2 idx vs tr s h v ls ld fd v2 vs2 hcol hexit ih =>
    rw [Intersection.process_vehicles]
    unfold vs2 v2 fd ld ls v at ih hcol
    unfold v2 fd ld ls v at hexit
    rw [dif_pos h, if_neg (by simp [hcol]), if_pos hexit]
    simp only [List.set_set, List.length_set] at ih ⊢
    exact ih
  | case3 idx vs tr s h v ls ld fd v2 vs2 hcol hexit ih =>
    rw [Intersection.process_vehicles]
    unfold vs2 v2 fd ld ls v at ih hcol
    unfold v2 fd ld ls v at hexit
    rw [dif_pos h, if_neg (by simp [hcol]), if_neg (by simp [hexit])]
    simp only [List.set_set, List.length_set] at ih ⊢
    exact ih
  | case4 idx vs tr s h =>
    rw [Intersection.process_vehicles]
    rw [dif_neg h]

lemma process_vehicles_stats (i : Intersection) (noise : ℕ → Bool)
    (now : ℚ) (idx : ℕ) (vs : List Vehicle) (tr : List ℕ) (s : Stats) :
    (i.process_vehicles noise now idx vs tr s).2.2.total_vehicles =
      s.total_vehicles ∧
    (i.process_vehicles noise now idx vs tr s).2.2.queue_lengths =
      s.queue_lengths ∧
    (i.process_vehicles noise now idx vs tr s).2.2.throughput + tr.length ≤
      s.throughput + (i.process_vehicles noise now idx vs tr s).2.1.length := by
  induction idx, vs, tr, s using Intersection.process_vehicles.induct i noise now with
  | case1 idx vs tr s h v ls ld fd v2 vs2 hcol ih =>
    rw [Intersection.process_vehicles]
    unfold vs2 v2 fd ld ls v at ih hcol
    rw [dif_pos h, if_pos hcol]
    simp only [List.set_set] at ih ⊢
    obtain ⟨ih1, ih2, ih3⟩ := ih
    refine ⟨ih1, ih2, ?_⟩
    simp only [List.length_append, List.length_cons, List.length_nil] at ih3
    omega
  | case2 idx vs tr s h v ls ld fd v2 vs2 hcol hexit ih =>
    rw [Intersection.process_vehicles]
    unfold vs2 v2 fd ld ls v at ih hcol
    unfold v2 fd ld ls v at hexit
    rw [dif_pos h, if_neg (by simp [hcol]), if_pos hexit]
    simp only [List.set_set] at ih ⊢
    obtain ⟨ih1, ih2, ih3⟩ := ih
    refine ⟨ih1, ih2, ?_⟩
    simp only [record_exit_stats, List.length_append, List.length_cons,
      List.length_nil] at ih1 ih2 ih3 ⊢
    omega
  | case3 idx vs tr s h v ls ld fd v2 vs2 hcol hexit ih =>
    rw [Intersection.process_vehicles]
    unfold vs2 v2 fd ld ls v at ih hcol
    unfold v2 fd ld ls v at hexit
    rw [dif_pos h, if_neg (by simp [hcol]), if_neg (by simp [hexit])]
    exact ih
  | case4 idx vs tr s h =>
    rw [Intersection.process_vehicles]
    rw [dif_neg h]
    exact ⟨rfl, rfl, le_rfl⟩

lemma process_vehicles_marks (i : Intersection) (noise : ℕ → Bool)
    (now : ℚ) (idx : ℕ) (vs : List Vehicle) (tr : List ℕ) (s : Stats) :
    (∀ j ∈ tr, j < idx) → tr.Pairwise (· < ·) →
    (∀ j ∈ tr, j < vs.length) →
    ((i.process_vehicles noise now idx vs tr s).2.1.Pairwise (· < ·) ∧
      ∀ j ∈ (i.process_vehicles noise now idx vs tr s).2.1,
        j < vs.length) := by
  induction idx, vs, tr, s using Intersection.process_vehicles.induct i noise now with
  | case1 idx vs tr s h v ls ld fd v2 vs2 hcol ih =>
    intro hlt hp hb
    rw [Intersection.process_vehicles]
    unfold vs2 v2 fd ld ls v at ih hcol
    rw [dif_pos h, if_pos hcol]
    simp only [List.set_set, List.length_set] at ih ⊢
    refine ih ?_ ?_ ?_
    · intro j hj
      rcases List.mem_append.mp hj with hj | hj
      · exact Nat.lt_succ_of_lt (hlt j hj)
      · simp only [List.mem_singleton] at hj
        omega
    · refine List.pairwise_append.mpr ⟨hp, List.pairwise_singleton _ _, ?_⟩
      intro a ha b hb2
      simp only [List.mem_singleton] at hb2
      subst hb2
      exact hlt a ha
    · intro j hj
      rcases List.mem_append.mp hj with hj | hj
      · exact hb j hj
      · simp only [List.mem_singleton] at hj
        omega
  | case2 idx vs tr s h v ls ld fd v2 vs2 hcol hexit ih =>
    intro hlt hp hb
    rw [Intersection.process_vehicles]
    unfold vs2 v2 fd ld ls v at ih hcol
    unfold v2 fd ld ls v at hexit
    rw [dif_pos h, if_neg (by simp [hcol]), if_pos hexit]
    simp only [List.set_set, List.length_set] at ih ⊢
    refine ih ?_ ?_ ?_
    · intro j hj
      rcases List.mem_append.mp hj with hj | hj
      · exact Nat.lt_succ_of_lt (hlt j hj)
      · simp only [List.mem_singleton] at hj
        omega
    · refine List.pairwise_append.mpr ⟨hp, List.pairwise_singleton _ _, ?_⟩
      intro a ha b hb2
      simp only [List.mem_singleton] at hb2
      subst hb2
      exact hlt a ha
    · intro j hj
      rcases List.mem_append.mp hj with hj | hj
      · exact hb j hj
      · simp only [List.mem_singleton] at hj
        omega
  | case3 idx vs tr s h v ls ld fd v2 vs2 hcol hexit ih =>
    intro hlt hp hb
    rw [Intersection.process_vehicles]
    unfold vs2 v2 fd ld ls v at ih hcol
    unfold v2 fd ld ls v at hexit
    rw [dif_pos h, if_neg (by simp [hcol]), if_neg (by simp [hexit])]
    simp only [List.length_set] at ih ⊢
    exact ih (fun j hj => Nat.lt_succ_of_lt (hlt j hj)) hp hb
  | case4 idx vs tr s h =>
    intro hlt hp hb
    rw [Intersection.process_vehicles]
    rw [dif_neg h]
    exact ⟨hp, hb⟩

lemma process_vehicles_marked_exit (i : Intersection) (noise : ℕ → Bool)
    (now : ℚ) (idx : ℕ) (vs : List Vehicle) (tr : List ℕ) (s : Stats) :
    (∀ j ∈ tr, j < idx) →
    (∀ j ∈ tr, ∃ w, vs[j]? = some w ∧ w.exit_time = some now) →
    ∀ j ∈ (i.process_vehicles noise now idx vs tr s).2.1,
      ∃ w, (i.process_vehicles noise now idx vs tr s).1[j]? = some w ∧
        w.exit_time = some now := by
  induction idx, vs, tr, s using Intersection.process_vehicles.induct i noise now with
  | case1 idx vs tr s h v ls ld fd v2 vs2 hcol ih =>
    intro hlt hex
    rw [Intersection.process_vehicles]
    unfold vs2 v2 fd ld ls v at ih hcol
    rw [dif_pos h, if_pos hcol]
    simp only [List.set_set] at ih ⊢
    refine ih ?_ ?_
    · intro j hj
      rcases List.mem_append.mp hj with hj | hj
      · exact Nat.lt_succ_of_lt (hlt j hj)
      · simp only [List.mem_singleton] at hj
        omega
    · intro j hj
      rcases List.mem_append.mp hj with hj | hj
      · obtain ⟨w, hw, hwt⟩ := hex j hj
        exact ⟨w, by rw [List.getElem?_set_ne (hlt j hj).ne']; exact hw, hwt⟩
      · simp only [List.mem_singleton] at hj
        subst hj
        exact ⟨_, List.getElem?_set_eq_of_lt _ h, rfl⟩
  | case2 idx vs tr s h v ls ld fd v2 vs2 hcol hexit ih =>
    intro hlt hex
    rw [Intersection.process_vehicles]
    unfold vs2 v2 fd ld ls v at ih hcol
    unfold v2 fd ld ls v at hexit
    rw [dif_pos h, if_neg (by simp [hcol]), if_pos hexit]
    simp only [List.set_set] at ih ⊢
    refine ih ?_ ?_
    · intro j hj
      rcases List.mem_append.mp hj with hj | hj
      · exact Nat.lt_succ_of_lt (hlt j hj)
      · simp only [List.mem_singleton] at hj
        omega
    · intro j hj
      rcases List.mem_append.mp hj with hj | hj
      · obtain ⟨w, hw, hwt⟩ := hex j hj
        exact ⟨w, by rw [List.getElem?_set_ne (hlt j hj).ne']; exact hw, hwt⟩
      · simp only [List.mem_singleton] at hj
        subst hj
        exact ⟨_, List.getElem?_set_eq_of_lt _ h, rfl⟩
  | case3 idx vs tr s h v ls ld fd v2 vs2 hcol hexit ih =>
    intro hlt hex
    rw [Intersection.process_vehicles]
    unfold vs2 v2 fd ld ls v at ih hcol
    unfold v2 fd ld ls v at hexit
    rw [dif_pos h, if_neg (by simp [hcol]), if_neg (by simp [hexit])]
    refine ih ?_ ?_
    · exact fun j hj => Nat.lt_succ_of_lt (hlt j hj)
    · intro j hj
      obtain ⟨w, hw, hwt⟩ := hex j hj
      exact ⟨w, by rw [List.getElem?_set_ne (hlt j hj).ne']; exact hw, hwt⟩
  | case4 idx vs tr s h =>
    intro hlt hex
    rw [Intersection.process_vehicles]
    rw [dif_neg h]
    exact hex

lemma process_vehicles_unmarked (i : Intersection) (noise : ℕ → Bool)
    (now : ℚ) (idx : ℕ) (vs : List Vehicle) (tr : List ℕ) (s : Stats) :
    (∀ j, j ∉ tr → ∀ w, vs[j]? = some w → j < idx →
      i.check_exit w = false) →
    ∀ j, j ∉ (i.process_vehicles noise now idx vs tr s).2.1 →
      ∀ w, (i.process_vehicles noise now idx vs tr s).1[j]? = some w →
        i.check_exit w = false := by
  induction idx, vs, tr, s using Intersection.process_vehicles.induct i noise now with
  | case1 idx vs tr s h v ls ld fd v2 vs2 hcol ih =>
    intro hyp
    rw [Intersection.process_vehicles]
    unfold vs2 v2 fd ld ls v at ih hcol
    rw [dif_pos h, if_pos hcol]
    simp only [List.set_set] at ih ⊢
    refine ih ?_
    intro j hj w hw hjlt
    have hjtr : j ∉ tr := fun hc => hj (List.mem_append.mpr (Or.inl hc))
    have hjne : j ≠ idx := fun hc => hj (by simp [hc])
    rw [List.getElem?_set_ne (Ne.symm hjne)] at hw
    exact hyp j hjtr w hw (by omega)
  | case2 idx vs tr s h v ls ld fd v2 vs2 hcol hexit ih =>
    intro hyp
    rw [Intersection.process_vehicles]
    unfold vs2 v2 fd ld ls v at ih hcol
    unfold v2 fd ld ls v at hexit
    rw [dif_pos h, if_neg (by simp [hcol]), if_pos hexit]
    simp only [List.set_set] at ih ⊢
    refine ih ?_
    intro j hj w hw hjlt
    have hjtr : j ∉ tr := fun hc => hj (List.mem_append.mpr (Or.inl hc))
    have hjne : j ≠ idx := fun hc => hj (by simp [hc])
    rw [List.getElem?_set_ne (Ne.symm hjne)] at hw
    exact hyp j hjtr w hw (by omega)
  | case3 idx vs tr s h v ls ld fd v2 vs2 hcol hexit ih =>
    intro hyp
    rw [Intersection.process_vehicles]
    unfold vs2 v2 fd ld ls v at ih hcol
    unfold v2 fd ld ls v at hexit
    rw [dif_pos h, if_neg (by simp [hcol]), if_neg (by simp [hexit])]
    refine ih ?_
    intro j hj w hw hjlt
    by_cases hjne : j = idx
    · subst hjne
      rw [List.getElem?_set_eq_of_lt _ h] at hw
      obtain rfl : _ = w := Option.some.inj hw
      exact Bool.eq_false_iff.mpr hexit
    · rw [List.getElem?_set_ne (Ne.symm hjne)] at hw
      exact hyp j hj w hw (by omega)
  | case4 idx vs tr s h =>
    intro hyp
    rw [Intersection.process_vehicles]
    rw [dif_neg h]
    intro j hj w hw
    have hlen : j < vs.length := by
      rcases List.getElem?_eq_some.mp hw with ⟨hl, -⟩
      exact hl
    exact hyp j hj w hw (by omega)

lemma pop_marked_spec : ∀ (ds : List ℕ) (vs removed : List Vehicle),
    ds.Pairwise (· > ·) → (∀ j ∈ ds, j < vs.length) →
    (pop_marked vs removed ds).1.length + ds.length = vs.length ∧
    (pop_marked vs removed ds).2.length = removed.length + ds.length ∧
    (pop_marked vs removed ds).2 =
      removed ++ ds.filterMap (fun j => vs[j]?) := by
  intro ds
  induction ds with
  | nil =>
    intro vs removed _ _
    simp [pop_marked]
  | cons d rest ih =>
    intro vs removed hp hb
    have hd : d < vs.length := hb d (List.mem_cons_self d rest)
    have hw : vs[d]? = some vs[d] := List.getElem?_eq_getElem hd
    rw [pop_marked, hw]
    have hdgt : ∀ j ∈ rest, j < d := fun j hj =>
      (List.pairwise_cons.mp hp).1 j hj
    have hrp : rest.Pairwise (· > ·) := (List.pairwise_cons.mp hp).2
    have hlen : (vs.eraseIdx d).length = vs.length - 1 :=
      List.length_eraseIdx_of_lt hd
    have hb' : ∀ j ∈ rest, j < (vs.eraseIdx d).length := by
      intro j hj
      have := hdgt j hj
      omega
    obtain ⟨ih1, ih2, ih3⟩ := ih (vs.eraseIdx d) (removed ++ [vs[d]]) hrp hb'
    refine ⟨by simp only [List.length_cons]; omega,
      by simp only [List.length_cons, ih2, List.length_append]; simp; omega, ?_⟩
    rw [ih3, List.filterMap_cons, hw]
    have hcong : rest.filterMap (fun j => (vs.eraseIdx d)[j]?) =
        rest.filterMap (fun j => vs[j]?) := by
      apply List.filterMap_congr
      intro j hj
      exact List.getElem?_eraseIdx_of_lt vs d j (hdgt j hj)
    rw [hcong]
    simp

lemma pop_marked_kept : ∀ (ds : List ℕ) (vs removed : List Vehicle),
    ds.Pairwise (· > ·) →
    ∀ v ∈ (pop_marked vs removed ds).1,
      ∃ j : ℕ, vs[j]? = some v ∧ j ∉ ds := by
  intro ds
  induction ds with
  | nil =>
    intro vs removed _ v hv
    simp only [pop_marked] at hv
    obtain ⟨j, hlt, hj⟩ := List.mem_iff_getElem.mp hv
    exact ⟨j, by rw [List.getElem?_eq_getElem hlt, hj], by simp⟩
  | cons d rest ih =>
    intro vs removed hp v hv
    have hdgt : ∀ j ∈ rest, j < d := fun j hj =>
      (List.pairwise_cons.mp hp).1 j hj
    have hrp : rest.Pairwise (· > ·) := (List.pairwise_cons.mp hp).2
    rw [pop_marked] at hv
    cases hvd : vs[d]? with
    | none =>
      rw [hvd] at hv
      obtain ⟨j, hj, hjn⟩ := ih vs removed hrp v hv
      refine ⟨j, hj, ?_⟩
      intro hc
      rcases List.mem_cons.mp hc with rfl | hc
      · rw [hvd] at hj
        cases hj
      · exact hjn hc
    | some w =>
      rw [hvd] at hv
      obtain ⟨j, hj, hjn⟩ := ih (vs.eraseIdx d) (removed ++ [w]) hrp v hv
      by_cases hjd : j < d
      · refine ⟨j, ?_, ?_⟩
        · rw [← List.getElem?_eraseIdx_of_lt vs d j hjd]
          exact hj
        · intro hc
          rcases List.mem_cons.mp hc with rfl | hc
          · omega
          · exact hjn hc
      · refine ⟨j + 1, ?_, ?_⟩
        · rw [← List.getElem?_eraseIdx_of_ge vs d j (by omega)]
          exact hj
        · intro hc
          rcases List.mem_cons.mp hc with h1 | hc
          · omega
          · have := hdgt _ hc
            omega

lemma spawn_vehicle_spec (i : Intersection)
    (draw : Option (Direction × ℚ × TargetDirection)) (now : ℚ) :
    (i.spawn_vehicle draw now).road_length = i.road_length ∧
    (i.spawn_vehicle draw now).removed_vehicles = i.removed_vehicles ∧
    (i.spawn_vehicle draw now).stats.throughput = i.stats.throughput ∧
    (i.spawn_vehicle draw now).stats.queue_lengths =
      i.stats.queue_lengths ∧
    (i.spawn_vehicle draw now).stats.total_vehicles + i.vehicles.length =
      i.stats.total_vehicles + (i.spawn_vehicle draw now).vehicles.length := by
  rcases draw with _ | ⟨dd, off, tg⟩
  · exact ⟨rfl, rfl, rfl, rfl, rfl⟩
  · refine ⟨rfl, rfl, rfl, rfl, ?_⟩
    simp [Intersection.spawn_vehicle]
    omega

lemma record_queue_lengths_fields (i : Intersection) :
    (i.record_queue_lengths).vehicles = i.vehicles ∧
    (i.record_queue_lengths).removed_vehicles = i.removed_vehicles ∧
    (i.record_queue_lengths).road_length = i.road_length ∧
    (i.record_queue_lengths).stats.total_vehicles =
      i.stats.total_vehicles ∧
    (i.record_queue_lengths).stats.throughput = i.stats.throughput :=
  ⟨rfl, rfl, rfl, rfl, rfl⟩

lemma queue_foldl_count (i : Intersection) (vs : List Vehicle)
    (q : Direction → ℕ) (d : Direction) :
    (vs.foldl
      (fun q v =>
        if i.get_distance_to_light v < 30 ∧ v.speed = 0 then
          fun d2 => if d2 = v.direction then q d2 + 1 else q d2
        else q)
      q) d =
      q d + (vs.filter fun v =>
        decide (i.get_distance_to_light v < 30 ∧ v.speed = 0 ∧
          v.direction = d)).length := by
  induction vs generalizing q with
  | nil => simp
  | cons v rest ih =>
    rw [List.foldl_cons, ih]
    by_cases h1 : i.get_distance_to_light v < 30 ∧ v.speed = 0
    · by_cases h2 : v.direction = d
      · simp only [if_pos h1, List.filter_cons, h2, and_true, h1.1, h1.2]
        simp
        omega
      · simp only [if_pos h1, List.filter_cons, h1.1, h1.2, true_and]
        simp [h2, Ne.symm h2]
    · rcases not_and_or.mp h1 with h | h <;>
        simp [if_neg h1, List.filter_cons, h]

lemma record_queue_lengths_queue (i : Intersection) (d : Direction) :
    (i.record_queue_lengths).stats.queue_lengths d =
      i.stats.queue_lengths d ++ [i.queue_count d] := by
  show i.stats.queue_lengths d ++ [_] = i.stats.queue_lengths d ++ [_]
  rw [queue_foldl_count]
  simp [Intersection.queue_count]

lemma step_core_stats (i2 : Intersection) (noise : ℕ → Bool) (now : ℚ) :
    (i2.step_core noise now).road_length = i2.road_length ∧
    (i2.step_core noise now).stats.total_vehicles =
      i2.stats.total_vehicles ∧
    (i2.step_core noise now).stats.queue_lengths =
      i2.stats.queue_lengths := by
  refine ⟨rfl, ?_, ?_⟩
  · exact (process_vehicles_stats i2 noise now 0 i2.vehicles [] i2.stats).1
  · exact (process_vehicles_stats i2 noise now 0 i2.vehicles [] i2.stats).2.1

lemma step_core_counts (i2 : Intersection) (noise : ℕ → Bool) (now : ℚ) :
    ∃ k : ℕ,
      (i2.step_core noise now).stats.throughput ≤
        i2.stats.throughput + k ∧
      (i2.step_core noise now).removed_vehicles.length =
        i2.removed_vehicles.length + k ∧
      (i2.step_core noise now).vehicles.length + k =
        i2.vehicles.length := by
  have hlen := process_vehicles_length i2 noise now 0 i2.vehicles [] i2.stats
  have hstats := process_vehicles_stats i2 noise now 0 i2.vehicles [] i2.stats
  have hmarks := process_vehicles_marks i2 noise now 0 i2.vehicles [] i2.stats
    (by simp) (by simp) (by simp)
  have hrev_pairwise :
      ((i2.process_vehicles noise now 0 i2.vehicles []
        i2.stats).2.1.reverse).Pairwise (· > ·) :=
    List.pairwise_reverse.mpr hmarks.1
  have hrev_bound : ∀ j ∈ (i2.process_vehicles noise now 0 i2.vehicles []
      i2.stats).2.1.reverse,
      j < (i2.process_vehicles noise now 0 i2.vehicles [] i2.stats).1.length := by
    intro j hj
    rw [hlen]
    exact hmarks.2 j (List.mem_reverse.mp hj)
  obtain ⟨p1, p2, -⟩ := pop_marked_spec _ _ i2.removed_vehicles
    hrev_pairwise hrev_bound
  refine ⟨(i2.process_vehicles noise now 0 i2.vehicles [] i2.stats).2.1.length,
    ?_, ?_, ?_⟩
  · show (i2.process_vehicles noise now 0 i2.vehicles [] i2.stats).2.2.throughput ≤
      i2.stats.throughput +
        (i2.process_vehicles noise now 0 i2.vehicles [] i2.stats).2.1.length
    have := hstats.2.2
    simp only [List.length_nil] at this
    omega
  · show (pop_marked (i2.process_vehicles noise now 0 i2.vehicles [] i2.stats).1
        i2.removed_vehicles
        (i2.process_vehicles noise now 0 i2.vehicles [] i2.stats).2.1.reverse).2.length =
      i2.removed_vehicles.length +
        (i2.process_vehicles noise now 0 i2.vehicles [] i2.stats).2.1.length
    rw [List.length_reverse] at p2
    exact p2
  · show (pop_marked (i2.process_vehicles noise now 0 i2.vehicles [] i2.stats).1
        i2.removed_vehicles
        (i2.process_vehicles noise now 0 i2.vehicles [] i2.stats).2.1.reverse).1.length +
        (i2.process_vehicles noise now 0 i2.vehicles [] i2.stats).2.1.length =
      i2.vehicles.length
    rw [List.length_reverse] at p1
    omega

lemma step_core_exit (i2 : Intersection) (noise : ℕ → Bool) (now : ℚ) :
    (∀ v ∈ (i2.step_core noise now).vehicles, i2.check_exit v = false) ∧
    (∃ new, (i2.step_core noise now).removed_vehicles =
        i2.removed_vehicles ++ new ∧
      ∀ v ∈ new, v.exit_time = some now) := by
  have hlen := process_vehicles_length i2 noise now 0 i2.vehicles [] i2.stats
  have hmarks := process_vehicles_marks i2 noise now 0 i2.vehicles [] i2.stats
    (by simp) (by simp) (by simp)
  have hrev_pairwise :
      ((i2.process_vehicles noise now 0 i2.vehicles []
        i2.stats).2.1.reverse).Pairwise (· > ·) :=
    List.pairwise_reverse.mpr hmarks.1
  have hrev_bound : ∀ j ∈ (i2.process_vehicles noise now 0 i2.vehicles []
      i2.stats).2.1.reverse,
      j < (i2.process_vehicles noise now 0 i2.vehicles [] i2.stats).1.length := by
    intro j hj
    rw [hlen]
    exact hmarks.2 j (List.mem_reverse.mp hj)
  constructor
  · intro v hv
    obtain ⟨j, hj, hjn⟩ := pop_marked_kept _ _ i2.removed_vehicles
      hrev_pairwise v hv
    have hjn2 : j ∉ (i2.process_vehicles noise now 0 i2.vehicles []
        i2.stats).2.1 := fun hc => hjn (List.mem_reverse.mpr hc)
    exact process_vehicles_unmarked i2 noise now 0 i2.vehicles [] i2.stats
      (fun j _ w _ hj0 => absurd hj0 (Nat.not_lt_zero j)) j hjn2 v hj
  · obtain ⟨-, -, p3⟩ := pop_marked_spec _ _ i2.removed_vehicles
      hrev_pairwise hrev_bound
    refine ⟨_, p3, ?_⟩
    intro v hv
    obtain ⟨j, hjmem, hj⟩ := List.mem_filterMap.mp hv
    have hjtr : j ∈ (i2.process_vehicles noise now 0 i2.vehicles []
        i2.stats).2.1 := List.mem_reverse.mp hjmem
    obtain ⟨w, hw, hwt⟩ := process_vehicles_marked_exit i2 noise now 0
      i2.vehicles [] i2.stats (by simp) (by simp) j hjtr
    rw [hw] at hj
    obtain rfl := Option.some.inj hj
    exact hwt

lemma update_counts_inv (i : Intersection) (o : StepOracle) (now : ℚ)
    (h1 : i.stats.throughput ≤ i.removed_vehicles.length)
    (h2 : i.removed_vehicles.length + i.vehicles.length =
      i.stats.total_vehicles) :
    (i.update o now).stats.throughput ≤
      (i.update o now).removed_vehicles.length ∧
    (i.update o now).removed_vehicles.length +
        (i.update o now).vehicles.length =
      (i.update o now).stats.total_vehicles := by
  unfold Intersection.update
  obtain ⟨rv, rr, -, rt, rthr⟩ := record_queue_lengths_fields
    (((i.advance_lights).spawn_vehicle o.spawn now).step_core o.noise now)
  rw [rv, rr, rt, rthr]
  have tot_eq := (step_core_stats ((i.advance_lights).spawn_vehicle o.spawn
    now) o.noise now).2.1
  obtain ⟨k, c1, c2, c3⟩ := step_core_counts
    ((i.advance_lights).spawn_vehicle o.spawn now) o.noise now
  obtain ⟨-, s2, s3, -, s5⟩ := spawn_vehicle_spec i.advance_lights o.spawn
    now
  have e1 : (i.advance_lights).stats.throughput = i.stats.throughput := rfl
  have e2 : (i.advance_lights).removed_vehicles = i.removed_vehicles := rfl
  have e3 : (i.advance_lights).vehicles = i.vehicles := rfl
  have e4 : (i.advance_lights).stats.total_vehicles =
    i.stats.total_vehicles := rfl
  rw [e1] at s3
  rw [e2] at s2
  rw [e3, e4] at s5
  have s2l : ((i.advance_lights).spawn_vehicle o.spawn
      now).removed_vehicles.length = i.removed_vehicles.length := by
    rw [s2]
  exact ⟨by omega, by omega⟩

/-- **C5**: in every state reachable by running `update` any number of
times from a freshly constructed intersection (with any configuration,
oracles and timestamps), `throughput ≤ total_vehicles`.  The inductive
invariant is `throughput ≤ |removed_vehicles|` together with
`|removed_vehicles| + |vehicles| = total_vehicles`. -/
theorem throughput_le_total_spawned (road_length lane_width spawn_rate : ℚ)
    (steps : List (StepOracle × ℚ)) :
    ((mkIntersection road_length lane_width spawn_rate).run
        steps).stats.throughput ≤
      ((mkIntersection road_length lane_width spawn_rate).run
        steps).stats.total_vehicles := by
  have key : ∀ (l : List (StepOracle × ℚ)) (j : Intersection),
      j.stats.throughput ≤ j.removed_vehicles.length →
      j.removed_vehicles.length + j.vehicles.length =
        j.stats.total_vehicles →
      ((j.run l).stats.throughput ≤ (j.run l).removed_vehicles.length ∧
        (j.run l).removed_vehicles.length + (j.run l).vehicles.length =
          (j.run l).stats.total_vehicles) := by
    intro l
    induction l with
    | nil =>
      intro j h1 h2
      exact ⟨h1, h2⟩
    | cons p rest ih =>
      intro j h1 h2
      obtain ⟨o, now⟩ := p
      obtain ⟨a, b⟩ := update_counts_inv j o now h1 h2
      exact ih (j.update o now) a b
  obtain ⟨a, b⟩ := key steps (mkIntersection road_length lane_width
    spawn_rate) (Nat.le_refl 0) rfl
  omega

/-- **C7**: with `road_length = 200`, after any `update` call no active
north-bound vehicle has a y-coordinate above 200 — so a north-bound
vehicle is moved out of the active list during the very step in which its
y-coordinate first exceeds 200 — and `removed_vehicles` only grows, every
vehicle added to it during the step having `exit_time` set to that step's
timestamp (hence not in any later step). -/
theorem north_exit_same_tick (i : Intersection) (o : StepOracle) (now : ℚ)
    (hroad : i.road_length = 200) :
    (∀ v ∈ (i.update o now).vehicles, v.direction = Direction.north →
      ∀ x y : ℚ, v.position = some (x, y) → y ≤ 200) ∧
    (∃ new, (i.update o now).removed_vehicles =
        i.removed_vehicles ++ new ∧
      ∀ v ∈ new, v.exit_time = some now) := by
  unfold Intersection.update
  obtain ⟨rv, rr, -, -, -⟩ := record_queue_lengths_fields
    (((i.advance_lights).spawn_vehicle o.spawn now).step_core o.noise now)
  rw [rv, rr]
  obtain ⟨ha, hb⟩ := step_core_exit ((i.advance_lights).spawn_vehicle
    o.spawn now) o.noise now
  have hroad2 : ((i.advance_lights).spawn_vehicle o.spawn
      now).road_length = 200 := by
    rw [(spawn_vehicle_spec i.advance_lights o.spawn now).1]
    exact hroad
  constructor
  · intro v hv hdir x y hpos
    have hc := ha v hv
    simp only [Intersection.check_exit, hdir] at hc
    rw [hroad2] at hc
    rw [decide_eq_false_iff_not] at hc
    have hxy : posOf v = (x, y) := by
      simp [posOf, hpos]
    rw [hxy] at hc
    exact le_of_not_lt hc
  · obtain ⟨new, hnew, hall⟩ := hb
    refine ⟨new, ?_, hall⟩
    rw [hnew]
    rw [(spawn_vehicle_spec i.advance_lights o.spawn now).2.1]
    rfl

/-- **C8**: every `update` call appends exactly one sample to each of the
four directions' `queue_lengths` series, whatever the spawn and noise
draws; the sample for a direction equals the number of active (post-step)
vehicles of that direction strictly within 30 units of their stop line
whose post-move speed is 0 (`queue_count`). -/
theorem queue_sampling_per_tick (i : Intersection) (o : StepOracle)
    (now : ℚ) (d : Direction) :
    (i.update o now).stats.queue_lengths d =
      i.stats.queue_lengths d ++ [(i.update o now).queue_count d] := by
  unfold Intersection.update
  rw [record_queue_lengths_queue]
  have hq : (((i.advance_lights).spawn_vehicle o.spawn now).step_core
      o.noise now).stats.queue_lengths = i.stats.queue_lengths := by
    rw [(step_core_stats ((i.advance_lights).spawn_vehicle o.spawn now)
      o.noise now).2.2]
    rw [(spawn_vehicle_spec i.advance_lights o.spawn now).2.2.2.1]
    rfl
  rw [hq]
  rfl

theorem north_exit_same_tick_witness :
    (mkIntersection 200 15 0).road_length = 200 ∧
    ((∀ v ∈ ((mkIntersection 200 15 0).update
          ⟨none, fun _ => false⟩ 0).vehicles,
        v.direction = Direction.north →
        ∀ x y : ℚ, v.position = some (x, y) → y ≤ 200) ∧
      (∃ new, ((mkIntersection 200 15 0).update
            ⟨none, fun _ => false⟩ 0).removed_vehicles =
          (mkIntersection 200 15 0).removed_vehicles ++ new ∧
        ∀ v ∈ new, v.exit_time = some 0)) :=
  ⟨rfl, north_exit_same_tick (mkIntersection 200 15 0)
    ⟨none, fun _ => false⟩ 0 rfl⟩

/-- **C10 counterexample**: the constructor takes only `road_length`,
`lane_width` and `spawn_rate` (the argument list of `mkIntersection`);
for the concrete construction used by the source's `__main__`
(road 200, lane 15), both signals come out with the hard-coded
`cycle=60, green_ratio=0.5` configuration (green duration 30), NS green
and EW red — no per-signal cycleLength/greenRatio argument exists to
configure them. -/
theorem ctor_signal_config_counterexample :
    (mkIntersection 200 15 (1 / 2)).light_NS.cycle = 60 ∧
    (mkIntersection 200 15 (1 / 2)).light_NS.green_duration = 30 ∧
    (mkIntersection 200 15 (1 / 2)).light_NS.state = .green ∧
    (mkIntersection 200 15 (1 / 2)).light_EW.cycle = 60 ∧
    (mkIntersection 200 15 (1 / 2)).light_EW.green_duration = 30 ∧
    (mkIntersection 200 15 (1 / 2)).light_EW.state = .red := by
  refine ⟨rfl, ?_, rfl, rfl, ?_, rfl⟩
  · rw [show (mkIntersection 200 15 (1 / 2)).light_NS.green_duration =
      (mkTrafficLight 60 (1 / 2)).green_duration from rfl,
      mkTrafficLight_60_eq]
  · rw [show (mkIntersection 200 15 (1 / 2)).light_EW.green_duration =
      (mkTrafficLight 60 (1 / 2)).green_duration from rfl,
      mkTrafficLight_60_eq]

/-- **C10 (amended)**: the constructor accepts `road_length`,
`lane_width` and `spawn_rate` only; the two signals it creates are
hard-coded `TrafficLight(cycle=60, green_ratio=0.5)` instances (so they
never reflect any caller-chosen per-signal values), with the NS light set
green and the EW light set red. -/
theorem ctor_signal_config (road_length lane_width spawn_rate : ℚ) :
    (mkIntersection road_length lane_width spawn_rate).road_length =
      road_length ∧
    (mkIntersection road_length lane_width spawn_rate).lane_width =
      lane_width ∧
    (mkIntersection road_length lane_width spawn_rate).spawn_rate =
      spawn_rate ∧
    (mkIntersection road_length lane_width spawn_rate).light_NS =
      { mkTrafficLight 60 (1 / 2) with state := .green } ∧
    (mkIntersection road_length lane_width spawn_rate).light_EW =
      { mkTrafficLight 60 (1 / 2) with state := .red } :=
  ⟨rfl, rfl, rfl, rfl, rfl⟩
